import Mathlib

/-!
# Verification of the WOPI server lock-interoperability core (`wopiutils.py`)

This file gives a shallow embedding, in Lean 4, of the lock-handling
functions of the WOPI server utility module, and proves (or refutes)
the specification claims about them.

Conventions of the embedding:
* Python byte strings are `List Nat` with every element `< 256`;
  Python text strings are either Lean `String` or `List Char` as fits.
* Python functions that may raise are embedded with `Option`/`Except`.
* Effectful functions are embedded with an explicit environment record
  holding the outcome of each external (storage/clock/config) call, and
  return a trace of the storage operations they performed where a claim
  is about effects.
-/

namespace Wopi

/-! ## Base64 (model of Python `base64.b64encode` / `b64decode`)

Bytes are `Nat < 256`; the encoded form is the list of ASCII codes of
the base64 alphabet, `61` being `'='` (padding). -/

/-- The base64 alphabet: sextet (`< 64`) to ASCII code. -/
def s2c (n : Nat) : Nat :=
  if n < 26 then 65 + n
  else if n < 52 then 97 + (n - 26)
  else if n < 62 then 48 + (n - 52)
  else if n = 62 then 43
  else 47

/-- Inverse alphabet: ASCII code back to sextet, `none` off-alphabet. -/
def c2s (c : Nat) : Option Nat :=
  if 65 ≤ c ∧ c ≤ 90 then some (c - 65)
  else if 97 ≤ c ∧ c ≤ 122 then some (26 + (c - 97))
  else if 48 ≤ c ∧ c ≤ 57 then some (52 + (c - 48))
  else if c = 43 then some 62
  else if c = 47 then some 63
  else none

theorem c2s_s2c : ∀ n, n < 64 → c2s (s2c n) = some n := by decide

theorem s2c_ne_61 (n : Nat) : s2c n ≠ 61 := by
  unfold s2c
  repeat' split
  all_goals omega

/-- Model of `base64.b64encode` on a byte list: 3 bytes to 4 sextet chars,
with `'='` (61) padding for a 1- or 2-byte tail. -/
def b64encodeBytes : List Nat → List Nat
  | [] => []
  | [a] => [s2c (a / 4), s2c (a % 4 * 16), 61, 61]
  | [a, b] => [s2c (a / 4), s2c (a % 4 * 16 + b / 16), s2c (b % 16 * 4), 61]
  | a :: b :: c :: rest =>
      s2c (a / 4) :: s2c (a % 4 * 16 + b / 16) :: s2c (b % 16 * 4 + c / 64) ::
        s2c (c % 64) :: b64encodeBytes rest

/-- Model of `base64.b64decode`: requires a well-formed padded base64
string, `none` (the `binascii.Error` case) otherwise. -/
def b64decodeBytes : List Nat → Option (List Nat)
  | [] => some []
  | w :: x :: y :: z :: rest =>
    match c2s w, c2s x with
    | some sw, some sx =>
      if y = 61 ∧ z = 61 ∧ rest = [] then some [sw * 4 + sx / 16]
      else if z = 61 ∧ rest = [] then
        match c2s y with
        | some sy => some [sw * 4 + sx / 16, sx % 16 * 16 + sy / 4]
        | none => none
      else
        match c2s y, c2s z with
        | some sy, some sz =>
          (b64decodeBytes rest).map
            (fun t => (sw * 4 + sx / 16) :: (sx % 16 * 16 + sy / 4) :: (sy % 4 * 64 + sz) :: t)
        | _, _ => none
    | _, _ => none
  | _ => none

theorem b64decode_encode :
    ∀ l : List Nat, (∀ b ∈ l, b < 256) → b64decodeBytes (b64encodeBytes l) = some l
  | [], _ => rfl
  | [a], h => by
    have ha : a < 256 := h a (by simp)
    have h1 : c2s (s2c (a / 4)) = some (a / 4) := c2s_s2c _ (by omega)
    have h2 : c2s (s2c (a % 4 * 16)) = some (a % 4 * 16) := c2s_s2c _ (by omega)
    simp only [b64encodeBytes, b64decodeBytes, h1, h2, eq_self_iff_true, and_self,
      if_true, true_and]
    congr 1
    have g1 : a % 4 * 16 / 16 = a % 4 := by omega
    rw [g1]
    have g2 : a / 4 * 4 + a % 4 = a := by omega
    rw [g2]
  | [a, b], h => by
    have ha : a < 256 := h a (by simp)
    have hb : b < 256 := h b (by simp)
    have h1 : c2s (s2c (a / 4)) = some (a / 4) := c2s_s2c _ (by omega)
    have h2 : c2s (s2c (a % 4 * 16 + b / 16)) = some (a % 4 * 16 + b / 16) :=
      c2s_s2c _ (by omega)
    have h3 : c2s (s2c (b % 16 * 4)) = some (b % 16 * 4) := c2s_s2c _ (by omega)
    simp only [b64encodeBytes, b64decodeBytes, h1, h2, h3,
      eq_false (s2c_ne_61 (b % 16 * 4)), eq_self_iff_true, and_self, true_and,
      false_and, and_false, if_true, if_false]
    congr 1
    have e1 : (a % 4 * 16 + b / 16) / 16 = a % 4 := by omega
    have e2 : (a % 4 * 16 + b / 16) % 16 = b / 16 := by omega
    have e3 : b % 16 * 4 / 4 = b % 16 := by omega
    rw [e1, e2, e3]
    have f1 : a / 4 * 4 + a % 4 = a := by omega
    have f2 : b / 16 * 16 + b % 16 = b := by omega
    rw [f1, f2]
  | a :: b :: c :: rest, h => by
    have ha : a < 256 := h a (by simp)
    have hb : b < 256 := h b (by simp)
    have hc : c < 256 := h c (by simp)
    have ih := b64decode_encode rest (fun x hx => h x (by simp [hx]))
    have h1 : c2s (s2c (a / 4)) = some (a / 4) := c2s_s2c _ (by omega)
    have h2 : c2s (s2c (a % 4 * 16 + b / 16)) = some (a % 4 * 16 + b / 16) :=
      c2s_s2c _ (by omega)
    have h3 : c2s (s2c (b % 16 * 4 + c / 64)) = some (b % 16 * 4 + c / 64) :=
      c2s_s2c _ (by omega)
    have h4 : c2s (s2c (c % 64)) = some (c % 64) := c2s_s2c _ (by omega)
    simp only [b64encodeBytes, b64decodeBytes, h1, h2, h3, h4, ih,
      eq_false (s2c_ne_61 (b % 16 * 4 + c / 64)), eq_false (s2c_ne_61 (c % 64)),
      eq_self_iff_true, and_self, true_and, and_true, false_and, and_false,
      if_true, if_false, Option.map_some']
    congr 1
    have e1 : (a % 4 * 16 + b / 16) / 16 = a % 4 := by omega
    have e2 : (a % 4 * 16 + b / 16) % 16 = b / 16 := by omega
    have e3 : (b % 16 * 4 + c / 64) / 4 = b % 16 := by omega
    have e4 : (b % 16 * 4 + c / 64) % 4 = c / 64 := by omega
    rw [e1, e2, e3, e4]
    have f1 : a / 4 * 4 + a % 4 = a := by omega
    have f2 : b / 16 * 16 + b % 16 = b := by omega
    have f3 : c / 64 * 64 + c % 64 = c := by omega
    rw [f1, f2, f3]

/-! ## Lock codec (`encodeLock` / `_decodeLock`) -/

/-- Modelled from the spec: the fixed protocol marker
`common.WEBDAV_LOCK_PREFIX` lives in `core/commoniface.py`, which is not
part of this source tree; the spec describes it as a fixed marker
prefixed (with a space) to the base64-encoded raw lock. We use its
upstream value; no proof below depends on the particular byte values. -/
def WEBDAV_LOCK_PREFIX : List Nat :=
  "opaquelocktoken:797356a8-0500-4ceb-a8a0-c94c8cde7eba".toList.map Char.toNat

/-- `encodeLock`: `WEBDAV_LOCK_PREFIX + ' ' + b64encode(lock)`, `None`
for a falsy (empty) lock. -/
def encodeLock (lock : List Nat) : Option (List Nat) :=
  if lock ≠ [] then some (WEBDAV_LOCK_PREFIX ++ 32 :: b64encodeBytes lock)
  else none

/-- `_decodeLock`: checks the marker is at position 0, strips marker and
the space, base64-decodes; raises `IOError` (the `error` branch) when the
marker is absent or base64 decoding fails. -/
def _decodeLock (storedlock : Option (List Nat)) : Except String (List Nat) :=
  match storedlock with
  | some s =>
    if s.take WEBDAV_LOCK_PREFIX.length = WEBDAV_LOCK_PREFIX then
      match b64decodeBytes (s.drop (WEBDAV_LOCK_PREFIX.length + 1)) with
      | some l => Except.ok l
      | none => Except.error "IOError: invalid base64 payload"
    else Except.error "Non-WOPI lock found"
  | none => Except.error "Non-WOPI lock found"

/-- C1: for every non-empty lock string `s`, decoding the encoded form
restores it exactly: `_decodeLock (encodeLock s) = s`. -/
theorem C1_decode_encode_roundtrip (s : List Nat) (hne : s ≠ []) (hb : ∀ b ∈ s, b < 256) :
    _decodeLock (encodeLock s) = Except.ok s := by
  have henc : encodeLock s = some ((WEBDAV_LOCK_PREFIX ++ [32]) ++ b64encodeBytes s) := by
    unfold encodeLock
    rw [if_pos hne]
    simp
  rw [henc]
  simp only [_decodeLock]
  have hpre : ((WEBDAV_LOCK_PREFIX ++ [32]) ++ b64encodeBytes s).take WEBDAV_LOCK_PREFIX.length
      = WEBDAV_LOCK_PREFIX := by
    rw [List.append_assoc, List.take_left]
  rw [if_pos hpre]
  have hlen : WEBDAV_LOCK_PREFIX.length + 1 = (WEBDAV_LOCK_PREFIX ++ [32]).length := by
    simp
  rw [hlen, List.drop_left, b64decode_encode s hb]

/-- Witness for C1 at the concrete lock `"hi"` (bytes `[104, 105]`). -/
theorem C1_decode_encode_roundtrip_witness :
    ([104, 105] : List Nat) ≠ [] ∧ _decodeLock (encodeLock [104, 105]) = Except.ok [104, 105] :=
  ⟨by decide, C1_decode_encode_roundtrip [104, 105] (by decide) (by decide)⟩

/-! ## Python values and `json.loads` / `json.dumps`

`compareWopiLocks` and `makeConflictResponse` manipulate the results of
`json.loads`. We model Python values reachable from JSON with `PyVal`
(floats are modelled as exact decimals `mant · 10^exp`; `NaN`/`Infinity`,
which Python's decoder accepts, get their own constructors) and give an executable
recursive-descent parser with the grammar of Python's `json` module.
Recursions are structured on an explicit fuel so that every definition
is kernel-computable; the fuel picked at the entry points is always
sufficient. -/

inductive PyVal where
  | pynone
  | pybool (b : Bool)
  | pyint (n : Int)
  /-- a float, as the exact decimal `mant · 10 ^ exp10` (the decoder's
  decimal literal; binary-float rounding is not modelled, no claim
  involves floats). -/
  | pyfloat (mant : Int) (exp10 : Int)
  | pynan
  | pyinf (positive : Bool)
  | pystr (s : String)
  | pylist (xs : List PyVal)
  | pydict (kvs : List (String × PyVal))

/-- Equality of two exact decimals `m1 · 10^e1` and `m2 · 10^e2`. -/
def decEqFloat (m1 e1 m2 e2 : Int) : Bool :=
  if e1 ≥ e2 then m1 * (10 : Int) ^ (e1 - e2).toNat == m2
  else m1 == m2 * (10 : Int) ^ (e2 - e1).toNat

/-- Python dict lookup on an association list (keys are unique in every
dict produced by the parser, later duplicates overwriting earlier ones). -/
def dictGet (kvs : List (String × PyVal)) (k : String) : Option PyVal :=
  match kvs with
  | [] => none
  | (k2, v) :: rest => if k2 = k then some v else dictGet rest k

/-- Python dict insertion: an existing key keeps its position and gets
the new value, a new key is appended. -/
def insertKV (kvs : List (String × PyVal)) (k : String) (v : PyVal) :
    List (String × PyVal) :=
  match kvs with
  | [] => [(k, v)]
  | (k2, w) :: rest => if k2 = k then (k2, v) :: rest else (k2, w) :: insertKV rest k v

/-- Python `==` on `PyVal`, fuel-bounded (the fuel bounds the nesting
depth; `pyEq` below supplies a sufficient fuel). Numeric values compare
across types as in Python (`True == 1`, `1 == 1.0`); `NaN` is not equal
to anything, itself included. -/
def pyEqF : Nat → PyVal → PyVal → Bool
  | 0, _, _ => false
  | fuel+1, a, b =>
    match a, b with
    | .pynone, .pynone => true
    | .pybool x, .pybool y => x == y
    | .pybool x, .pyint n => (if x then (1 : Int) else 0) == n
    | .pyint n, .pybool x => n == (if x then (1 : Int) else 0)
    | .pybool x, .pyfloat m e => decEqFloat (if x then 1 else 0) 0 m e
    | .pyfloat m e, .pybool x => decEqFloat m e (if x then 1 else 0) 0
    | .pyint n, .pyint m => n == m
    | .pyint n, .pyfloat m e => decEqFloat n 0 m e
    | .pyfloat m e, .pyint n => decEqFloat m e n 0
    | .pyfloat m1 e1, .pyfloat m2 e2 => decEqFloat m1 e1 m2 e2
    | .pyinf x, .pyinf y => x == y
    | .pystr x, .pystr y => x == y
    | .pylist xs, .pylist ys =>
        xs.length == ys.length && (xs.zip ys).all (fun p => pyEqF fuel p.1 p.2)
    | .pydict xs, .pydict ys =>
        xs.length == ys.length && xs.all (fun kv =>
          match dictGet ys kv.1 with
          | some w => pyEqF fuel kv.2 w
          | none => false)
    | _, _ => false

/-- Python `==` between a `PyVal` and a Python `str`: a string equals
nothing but an equal string, so no recursion is involved. This is the
comparison performed by `l1['S'] == lock2`. -/
def pyValEqStr (v : PyVal) (s : String) : Bool :=
  match v with
  | .pystr t => t == s
  | _ => false

theorem pyValEqStr_iff (v : PyVal) (s : String) :
    pyValEqStr v s = true ↔ v = .pystr s := by
  cases v <;> simp [pyValEqStr]

/-! ### The JSON grammar of Python's `json.loads` -/

/-- JSON whitespace (`' \t\n\r'`). -/
def jsonWs (c : Char) : Bool := c = ' ' || c = '\t' || c = '\n' || c = '\r'

def skipWs (cs : List Char) : List Char := cs.dropWhile jsonWs

def hexVal (c : Char) : Option Nat :=
  if '0' ≤ c ∧ c ≤ '9' then some (c.toNat - 48)
  else if 'a' ≤ c ∧ c ≤ 'f' then some (c.toNat - 87)
  else if 'A' ≤ c ∧ c ≤ 'F' then some (c.toNat - 55)
  else none

/-- The single-character string escapes of JSON. -/
def escChar (c : Char) : Option Char :=
  if c = '"' then some '"'
  else if c = '\\' then some '\\'
  else if c = '/' then some '/'
  else if c = 'b' then some '\x08'
  else if c = 'f' then some '\x0C'
  else if c = 'n' then some '\n'
  else if c = 'r' then some '\r'
  else if c = 't' then some '\t'
  else none

/-- Parses the body of a JSON string (the opening quote already
consumed), `none` on malformed input; raw control characters are
rejected (strict mode), `\uXXXX` escapes are decoded, surrogate pairs
combined (a lone surrogate, which Python would keep as such, falls to
`Char.ofNat`'s default — no claim depends on it). Structured on fuel;
every step consumes at least one character, so the wrapper's fuel of
`length + 1` is always sufficient. -/
def parseJStringF : Nat → List Char → Option (List Char × List Char)
  | 0, _ => none
  | fuel+1, cs =>
    match cs with
    | [] => none
    | '"' :: rest => some ([], rest)
    | '\\' :: rest =>
      match rest with
      | 'u' :: h1 :: h2 :: h3 :: h4 :: rest2 =>
        match hexVal h1, hexVal h2, hexVal h3, hexVal h4 with
        | some d1, some d2, some d3, some d4 =>
          let n := ((d1 * 16 + d2) * 16 + d3) * 16 + d4
          match rest2 with
          | '\\' :: 'u' :: g1 :: g2 :: g3 :: g4 :: rest3 =>
            match hexVal g1, hexVal g2, hexVal g3, hexVal g4 with
            | some e1, some e2, some e3, some e4 =>
              let m := ((e1 * 16 + e2) * 16 + e3) * 16 + e4
              if 0xD800 ≤ n ∧ n ≤ 0xDBFF ∧ 0xDC00 ≤ m ∧ m ≤ 0xDFFF then
                (parseJStringF fuel rest3).map
                  (fun p => (Char.ofNat (0x10000 + (n - 0xD800) * 1024 + (m - 0xDC00)) :: p.1, p.2))
              else
                (parseJStringF fuel rest2).map (fun p => (Char.ofNat n :: p.1, p.2))
            | _, _, _, _ => (parseJStringF fuel rest2).map (fun p => (Char.ofNat n :: p.1, p.2))
          | _ => (parseJStringF fuel rest2).map (fun p => (Char.ofNat n :: p.1, p.2))
        | _, _, _, _ => none
      | c :: rest2 =>
        match escChar c with
        | some ec => (parseJStringF fuel rest2).map (fun p => (ec :: p.1, p.2))
        | none => none
      | [] => none
    | c :: rest =>
      if c.toNat < 32 then none
      else (parseJStringF fuel rest).map (fun p => (c :: p.1, p.2))

def parseJStringL (cs : List Char) : Option (List Char × List Char) :=
  parseJStringF (cs.length + 1) cs

def isJDigit (c : Char) : Bool := '0' ≤ c && c ≤ '9'

def digitsToNat (ds : List Char) : Nat := ds.foldl (fun a c => a * 10 + (c.toNat - 48)) 0

/-- Parses a JSON number per the regex of Python's `json` module:
optional minus, then `0` or a nonzero digit run, then an optional
fraction (dot plus digits) and an optional exponent — integer when
neither fraction nor exponent is present, float otherwise (an exact
decimal mantissa/exponent pair). -/
def parseNumber (cs : List Char) : Option (PyVal × List Char) :=
  let neg : Bool := cs.head? = some '-'
  let cs1 := if neg then cs.tail else cs
  let ipart : List Char :=
    match cs1 with
    | '0' :: _ => ['0']
    | c :: _ => if '1' ≤ c ∧ c ≤ '9' then cs1.takeWhile isJDigit else []
    | [] => []
  if ipart = [] then none
  else
    let rest1 := cs1.drop ipart.length
    let fpart : List Char :=
      match rest1 with
      | '.' :: r2 => (r2.takeWhile isJDigit)
      | _ => []
    let rest2 := if fpart = [] then rest1 else rest1.drop (fpart.length + 1)
    let epart : Option (Bool × List Char) :=
      match rest2 with
      | 'e' :: '+' :: r3 => if (r3.takeWhile isJDigit) = [] then none else some (true, r3.takeWhile isJDigit)
      | 'e' :: '-' :: r3 => if (r3.takeWhile isJDigit) = [] then none else some (false, r3.takeWhile isJDigit)
      | 'e' :: r3 => if (r3.takeWhile isJDigit) = [] then none else some (true, r3.takeWhile isJDigit)
      | 'E' :: '+' :: r3 => if (r3.takeWhile isJDigit) = [] then none else some (true, r3.takeWhile isJDigit)
      | 'E' :: '-' :: r3 => if (r3.takeWhile isJDigit) = [] then none else some (false, r3.takeWhile isJDigit)
      | 'E' :: r3 => if (r3.takeWhile isJDigit) = [] then none else some (true, r3.takeWhile isJDigit)
      | _ => none
    let rest3 :=
      match epart with
      | none => rest2
      | some (_, ds) =>
        match rest2 with
        | _ :: '+' :: _ => rest2.drop (ds.length + 2)
        | _ :: '-' :: _ => rest2.drop (ds.length + 2)
        | _ => rest2.drop (ds.length + 1)
    if fpart = [] ∧ epart = none then
      let v : Int := (digitsToNat ipart : Int)
      some (.pyint (if neg then -v else v), rest1)
    else
      let mant : Int := (digitsToNat (ipart ++ fpart) : Int)
      let exp10 : Int :=
        (match epart with
          | none => 0
          | some (epos, ds) =>
            if epos then (digitsToNat ds : Int) else -(digitsToNat ds : Int))
          - (fpart.length : Int)
      some (.pyfloat (if neg then -mant else mant) exp10, rest3)

mutual

/-- Parses one JSON value, leading whitespace allowed; `none` models a
`ValueError` from `json.loads`. -/
def parseValue (fuel : Nat) (cs : List Char) : Option (PyVal × List Char) :=
  match fuel with
  | 0 => none
  | fuel+1 =>
    match skipWs cs with
    | '{' :: rest => parseObjStart fuel rest
    | '[' :: rest => parseArrStart fuel rest
    | '"' :: rest => (parseJStringL rest).map (fun p => (PyVal.pystr p.1.asString, p.2))
    | 't' :: 'r' :: 'u' :: 'e' :: rest => some (.pybool true, rest)
    | 'f' :: 'a' :: 'l' :: 's' :: 'e' :: rest => some (.pybool false, rest)
    | 'n' :: 'u' :: 'l' :: 'l' :: rest => some (.pynone, rest)
    | 'N' :: 'a' :: 'N' :: rest => some (.pynan, rest)
    | 'I' :: 'n' :: 'f' :: 'i' :: 'n' :: 'i' :: 't' :: 'y' :: rest => some (.pyinf true, rest)
    | '-' :: 'I' :: 'n' :: 'f' :: 'i' :: 'n' :: 'i' :: 't' :: 'y' :: rest => some (.pyinf false, rest)
    | cs2 => parseNumber cs2

/-- Just after `'\x7b'`: either an empty object or its first member. -/
def parseObjStart (fuel : Nat) (cs : List Char) : Option (PyVal × List Char) :=
  match fuel with
  | 0 => none
  | fuel+1 =>
    match skipWs cs with
    | '}' :: rest => some (.pydict [], rest)
    | cs2 => parseMembers fuel cs2 []

/-- A sequence of `"key": value` members separated by `','`, ended by
`'\x7d'`; keys must be quoted strings. -/
def parseMembers (fuel : Nat) (cs : List Char) (acc : List (String × PyVal)) :
    Option (PyVal × List Char) :=
  match fuel with
  | 0 => none
  | fuel+1 =>
    match skipWs cs with
    | '"' :: rest =>
      match parseJStringL rest with
      | none => none
      | some (key, rest2) =>
        match skipWs rest2 with
        | ':' :: rest3 =>
          match parseValue fuel rest3 with
          | none => none
          | some (v, rest4) =>
            match skipWs rest4 with
            | '}' :: rest5 => some (.pydict (insertKV acc key.asString v), rest5)
            | ',' :: rest5 => parseMembers fuel rest5 (insertKV acc key.asString v)
            | _ => none
        | _ => none
    | _ => none

/-- Just after `'['`: either an empty array or its first element. -/
def parseArrStart (fuel : Nat) (cs : List Char) : Option (PyVal × List Char) :=
  match fuel with
  | 0 => none
  | fuel+1 =>
    match skipWs cs with
    | ']' :: rest => some (.pylist [], rest)
    | cs2 => parseElems fuel cs2 []

/-- A sequence of values separated by `','`, ended by `']'`. -/
def parseElems (fuel : Nat) (cs : List Char) (acc : List PyVal) :
    Option (PyVal × List Char) :=
  match fuel with
  | 0 => none
  | fuel+1 =>
    match parseValue fuel cs with
    | none => none
    | some (v, rest) =>
      match skipWs rest with
      | ']' :: rest2 => some (.pylist (acc ++ [v]), rest2)
      | ',' :: rest2 => parseElems fuel rest2 (acc ++ [v])
      | _ => none

end

/-- Model of `json.loads`: parse one value, then require only trailing
whitespace ("Extra data" otherwise); `none` is the `ValueError` case. -/
def jsonLoads (s : String) : Option PyVal :=
  match parseValue (s.length + 1) s.toList with
  | some (v, rest) => if skipWs rest = [] then some v else none
  | none => none

/-! ## `compareWopiLocks` -/

/-- Python `needle in hay` on strings (substring containment). -/
def isSubstring (needle hay : List Char) : Bool :=
  (List.range (hay.length + 1)).any (fun i => needle.isPrefixOf (hay.drop i))

/-- Python `'S' in v`: key membership for a dict, `==`-membership for a
list, substring for a str; `none` models the `TypeError` raised on the
remaining types. -/
def pyContainsS : PyVal → Option Bool
  | .pydict kvs => some (kvs.any (fun kv => kv.1 == "S"))
  | .pylist xs => some (xs.any (fun x => pyValEqStr x "S"))
  | .pystr s => some (isSubstring ['S'] s.toList)
  | _ => none

/-- Python `v['S']`: dict lookup; `none` models the `TypeError` raised
on any non-dict. (In `compareWopiLocks` every dict subscript is guarded
by `'S' in v`, so the dict-without-key case — a `KeyError` in Python —
is unreachable there.) -/
def pySubS : PyVal → Option PyVal
  | .pydict kvs => dictGet kvs "S"
  | _ => none

/-- The legacy branch `return l1['S'] == lock2` as executed inside the
inner `except` clause: if the subscript raises (`l1` not a dict), the
exception is caught by the outer handler, which returns `False`. -/
def bugCompatCompare (l1 : PyVal) (lock2 : String) : Option Bool :=
  match pySubS l1 with
  | some v => some (pyValEqStr v lock2)
  | none => some false

/-- `compareWopiLocks`, with the strict-check config flag as a Boolean
parameter. The return type is `Option Bool` because Python's function
body can fall off the end: in the branch where `lock1` is JSON without
key `'S'` and `lock2` is not JSON, no `return` statement is reached and
the function returns `None`. Exception flows of the source are made
explicit: a `TypeError` from `'S' in l1` propagates to the outer
handler (`some false`); a `TypeError` while evaluating
`l1['S'] == l2['S']` or from `'S' in l2` is caught by the inner handler,
which re-runs the bug-compatibility comparison. -/
def compareWopiLocks (wopilockstrictcheck : Bool) (lock1 lock2 : String) : Option Bool :=
  if lock1 = lock2 then some true
  else if wopilockstrictcheck then some false
  else
    match jsonLoads lock1 with
    | none => some false
    | some l1 =>
      match jsonLoads lock2 with
      | some l2 =>
        match pyContainsS l1 with
        | none => some false
        | some false => some false
        | some true =>
          match pyContainsS l2 with
          | none => bugCompatCompare l1 lock2
          | some false => some false
          | some true =>
            match pySubS l1, pySubS l2 with
            | some v1, some v2 =>
              -- `l1['S'] == l2['S']`; the fuel bounds the simultaneous
              -- nesting depth, which parsed values cannot exceed: a value
              -- parsed from a string is at most as deep as the string is
              -- long, so this fuel is always sufficient.
              some (pyEqF (lock1.length + lock2.length + 1) v1 v2)
            | _, _ => bugCompatCompare l1 lock2
      | none =>
        match pyContainsS l1 with
        | none => some false
        | some true => bugCompatCompare l1 lock2
        | some false => none

theorem dictGet_some_any (m : List (String × PyVal)) (k : String) (v : PyVal)
    (h : dictGet m k = some v) : m.any (fun kv => kv.1 == k) = true := by
  induction m with
  | nil => simp [dictGet] at h
  | cons kv rest ih =>
    obtain ⟨k2, w⟩ := kv
    by_cases hk : k2 = k
    · simp [hk]
    · simp only [dictGet, if_neg hk] at h
      simp [ih h]

theorem dictGet_none_any (m : List (String × PyVal)) (k : String)
    (h : dictGet m k = none) : m.any (fun kv => kv.1 == k) = false := by
  induction m with
  | nil => simp
  | cons kv rest ih =>
    obtain ⟨k2, w⟩ := kv
    by_cases hk : k2 = k
    · simp [dictGet, if_pos hk] at h
    · simp only [dictGet, if_neg hk] at h
      simp [ih h, hk]

/-- C2: in non-strict mode, with `lock1 ≠ lock2`, `lock1` parsing as a
JSON mapping whose key `'S'` holds `v`, and `lock2` not valid JSON,
`compareWopiLocks` returns `True` exactly when `v` equals the raw
unparsed `lock2` string. -/
theorem C2_bug_compat_path (lock1 lock2 : String) (m : List (String × PyVal)) (v : PyVal)
    (hne : lock1 ≠ lock2)
    (h1 : jsonLoads lock1 = some (.pydict m))
    (h2 : jsonLoads lock2 = none)
    (hS : dictGet m "S" = some v) :
    (compareWopiLocks false lock1 lock2 = some true) ↔ v = PyVal.pystr lock2 := by
  have hany := dictGet_some_any m "S" v hS
  simp only [compareWopiLocks, if_neg hne, Bool.false_eq_true, if_false, h1, h2,
    pyContainsS, hany, bugCompatCompare, pySubS, hS]
  rw [Option.some_inj]
  exact pyValEqStr_iff v lock2

/-- Witness for C2: `equal('\x7b"S":"x"\x7d', "x", false) == True`. -/
theorem C2_bug_compat_path_witness :
    compareWopiLocks false "\x7b\"S\":\"x\"\x7d" "x" = some true :=
  (C2_bug_compat_path "\x7b\"S\":\"x\"\x7d" "x" [("S", PyVal.pystr "x")] (PyVal.pystr "x")
    (by decide) rfl rfl rfl).mpr rfl

/-- C3 counterexample: at `lock1 = '\x7b"T":1\x7d'` (a JSON mapping
without key `'S'`) and `lock2 = "x"` (not valid JSON), the function does
not return the boolean `False`: it falls off the end, returning `None`. -/
theorem C3_counterexample :
    jsonLoads "\x7b\"T\":1\x7d" = some (PyVal.pydict [("T", PyVal.pyint 1)]) ∧
    dictGet [("T", PyVal.pyint 1)] "S" = none ∧
    jsonLoads "x" = none ∧
    "\x7b\"T\":1\x7d" ≠ "x" ∧
    compareWopiLocks false "\x7b\"T\":1\x7d" "x" ≠ some false :=
  ⟨rfl, rfl, rfl, by decide, by decide⟩

/-- C3 amended: in non-strict mode, when `lock1 ≠ lock2`, `lock1` parses
as a JSON mapping that does not contain key `'S'` and `lock2` is not
valid JSON, `compareWopiLocks` returns `None` (the implicit return of a
Python function body that falls off the end) — a falsy value, but not
the boolean `False`. -/
theorem C3_no_fallback_returns_none (lock1 lock2 : String) (m : List (String × PyVal))
    (hne : lock1 ≠ lock2)
    (h1 : jsonLoads lock1 = some (.pydict m))
    (hS : dictGet m "S" = none)
    (h2 : jsonLoads lock2 = none) :
    compareWopiLocks false lock1 lock2 = none := by
  have hany := dictGet_none_any m "S" hS
  simp only [compareWopiLocks, if_neg hne, Bool.false_eq_true, if_false, h1, h2,
    pyContainsS, hany]

/-- Witness for the amended C3 at the counterexample input. -/
theorem C3_no_fallback_returns_none_witness :
    compareWopiLocks false "\x7b\"T\":1\x7d" "x" = none :=
  C3_no_fallback_returns_none "\x7b\"T\":1\x7d" "x" [("T", PyVal.pyint 1)]
    (by decide) rfl rfl rfl

/-! ## `os.path` on POSIX paths, and `getMicrosoftOfficeLockName`

Paths are `List Char`. -/

/-- Python `str.rfind` for a single character: index of the last
occurrence, `-1` when absent. -/
def lastIdxOf (l : List Char) (c : Char) : Int :=
  match l with
  | [] => -1
  | a :: rest =>
    let r := lastIdxOf rest c
    if r ≥ 0 then r + 1
    else if a = c then 0 else -1

/-- `os.path.basename`: everything after the last `'/'`. -/
def basenameL (p : List Char) : List Char := p.drop (lastIdxOf p '/' + 1).toNat

/-- `os.path.dirname`: everything up to the last `'/'`, with trailing
slashes stripped unless the head consists only of slashes. -/
def dirnameL (p : List Char) : List Char :=
  let head := p.take (lastIdxOf p '/' + 1).toNat
  if head ≠ [] ∧ head.any (fun c => !(c == '/')) then
    (head.reverse.dropWhile (fun c => c == '/')).reverse
  else head

/-- `os.path.splitext` (CPython `genericpath._splitext` with `sep = '/'`
and `extsep = '.'`): split at the last dot, provided it lies after the
start of the basename and the characters between the basename start and
that dot are not all dots. -/
def splitextL (p : List Char) : List Char × List Char :=
  let sepIndex := lastIdxOf p '.'
  let filenameIndex := lastIdxOf p '/' + 1
  if filenameIndex < sepIndex then
    if ((p.drop filenameIndex.toNat).take (sepIndex - filenameIndex).toNat).any
        (fun c => !(c == '.')) then
      (p.take sepIndex.toNat, p.drop sepIndex.toNat)
    else (p, [])
  else (p, [])

/-- `getMicrosoftOfficeLockName`: the `~$`-prefixed sentinel path, with
MS Word's truncation rule for long `.docx` base names. -/
def getMicrosoftOfficeLockName (filename : List Char) : List Char :=
  if (splitextL filename).2 ≠ ".docx".toList ∨ (basenameL filename).length ≤ 6 + 1 + 4 then
    dirnameL filename ++ '/' :: '~' :: '$' :: basenameL filename
  else if (basenameL filename).length ≥ 8 + 1 + 4 then
    dirnameL filename ++ '/' :: '~' :: '$' :: (basenameL filename).drop 2
  else
    dirnameL filename ++ '/' :: '~' :: '$' :: (basenameL filename).drop 1

/-- The sentinel name as the spec words it (the refinement target for
C4): for `.docx` files whose base name *without extension* is longer
than 6 characters, `~$` + basename minus its first 2 characters when the
basename with extension is at least 13 characters, else `~$` + basename
minus its first character when it is exactly 12; otherwise `~$` +
original basename — all in the same directory. -/
def msSentinelSpecName (filename : List Char) : List Char :=
  let dir := dirnameL filename
  let b := basenameL filename
  let base := (splitextL b).1
  if (splitextL filename).2 = ".docx".toList ∧ base.length > 6 then
    if b.length ≥ 13 then dir ++ '/' :: '~' :: '$' :: b.drop 2
    else if b.length = 12 then dir ++ '/' :: '~' :: '$' :: b.drop 1
    else dir ++ '/' :: '~' :: '$' :: b
  else dir ++ '/' :: '~' :: '$' :: b

theorem lastIdxOf_neg_one_le (l : List Char) (c : Char) : -1 ≤ lastIdxOf l c := by
  induction l with
  | nil => simp [lastIdxOf]
  | cons a rest ih =>
    simp only [lastIdxOf]
    split
    · omega
    · split <;> omega

theorem lastIdxOf_lt_length (l : List Char) (c : Char) : lastIdxOf l c < l.length := by
  induction l with
  | nil => simp [lastIdxOf]
  | cons a rest ih =>
    simp only [lastIdxOf, List.length_cons]
    split
    · push_cast
      omega
    · split <;> push_cast <;> omega

theorem lastIdxOf_append (l1 l2 : List Char) (c : Char) :
    lastIdxOf (l1 ++ l2) c =
      if lastIdxOf l2 c ≥ 0 then l1.length + lastIdxOf l2 c else lastIdxOf l1 c := by
  induction l1 with
  | nil =>
    have := lastIdxOf_neg_one_le l2 c
    simp only [List.nil_append, List.length_nil, lastIdxOf]
    split <;> omega
  | cons a rest ih =>
    simp only [List.cons_append, lastIdxOf, List.append_eq, ih, List.length_cons]
    by_cases h2 : lastIdxOf l2 c ≥ 0
    · rw [if_pos h2, if_pos h2,
        if_pos (show (rest.length : Int) + lastIdxOf l2 c ≥ 0 by omega)]
      push_cast
      omega
    · rw [if_neg h2, if_neg h2]

theorem lastIdxOf_eq_neg_one_iff (l : List Char) (c : Char) :
    lastIdxOf l c = -1 ↔ c ∉ l := by
  induction l with
  | nil => simp [lastIdxOf]
  | cons a rest ih =>
    have hr := lastIdxOf_neg_one_le rest c
    simp only [lastIdxOf, List.mem_cons]
    by_cases h : lastIdxOf rest c ≥ 0
    · have hmem : c ∈ rest := by
        by_contra hc
        have := ih.mpr hc
        omega
      rw [if_pos h]
      constructor
      · intro he; omega
      · intro hne; exact absurd (Or.inr hmem) hne
    · have hr1 : lastIdxOf rest c = -1 := by omega
      have hnm : c ∉ rest := ih.mp hr1
      rw [if_neg h]
      by_cases hac : a = c
      · rw [if_pos hac]
        constructor
        · intro he; omega
        · intro hne; exact absurd (Or.inl hac.symm) hne
      · rw [if_neg hac]
        constructor
        · intro _ hmem
          rcases hmem with he | hm
          · exact hac he.symm
          · exact hnm hm
        · intro _; rfl

theorem not_mem_drop_lastIdxOf (l : List Char) (c : Char) :
    c ∉ l.drop (lastIdxOf l c + 1).toNat := by
  induction l with
  | nil => simp
  | cons a rest ih =>
    simp only [lastIdxOf]
    by_cases h : lastIdxOf rest c ≥ 0
    · rw [if_pos h]
      have he : ((lastIdxOf rest c + 1) + 1).toNat = (lastIdxOf rest c + 1).toNat + 1 := by
        omega
      rw [he, List.drop_succ_cons]
      exact ih
    · have hr1 : lastIdxOf rest c = -1 := by
        have := lastIdxOf_neg_one_le rest c
        omega
      have hnm : c ∉ rest := (lastIdxOf_eq_neg_one_iff rest c).mp hr1
      rw [if_neg h]
      by_cases hac : a = c
      · rw [if_pos hac]
        have he : ((0 : Int) + 1).toNat = 1 := by omega
        rw [he]
        simpa using hnm
      · rw [if_neg hac]
        have he : ((-1 : Int) + 1).toNat = 0 := by omega
        rw [he, List.drop_zero]
        intro hmem
        rcases List.mem_cons.mp hmem with he2 | hm
        · exact hac he2.symm
        · exact hnm hm

theorem lastIdxOf_basenameL_slash (p : List Char) :
    lastIdxOf (basenameL p) '/' = -1 :=
  (lastIdxOf_eq_neg_one_iff _ '/').mpr (not_mem_drop_lastIdxOf p '/')

/-- Unfolding of `splitextL` once its branch conditions are known. -/
theorem splitextL_eq_of_conds (b : List Char) (hs : lastIdxOf b '/' = -1)
    (hk : 0 < lastIdxOf b '.')
    (ha : (b.take (lastIdxOf b '.').toNat).any (fun c => !(c == '.')) = true) :
    splitextL b = (b.take (lastIdxOf b '.').toNat, b.drop (lastIdxOf b '.').toNat) := by
  unfold splitextL
  rw [hs]
  have h0 : (-1 : Int) + 1 = 0 := by omega
  rw [h0, if_pos hk]
  have h1 : ((0 : Int)).toNat = 0 := rfl
  have h2 : (lastIdxOf b '.' - 0) = lastIdxOf b '.' := by omega
  rw [h1, h2, List.drop_zero, if_pos ha]

/-- When `splitextL p` reports extension `".docx"`, the basename of `p`
splits five characters before its end: its extension-free root has
length `|basename| - 5` (and the basename is at least 5 long). -/
theorem basenameL_docx (p : List Char) (hE : (splitextL p).2 = ".docx".toList) :
    (splitextL (basenameL p)).1.length = (basenameL p).length - 5 ∧
      5 ≤ (basenameL p).length := by
  simp only [splitextL] at hE
  split at hE
  case isFalse => simp at hE
  case isTrue h1 =>
    split at hE
    case isFalse => simp at hE
    case isTrue h2 =>
      simp only at hE
      -- names for the two indices of the source
      have hfi0 : (0 : Int) ≤ lastIdxOf p '/' + 1 := by
        have := lastIdxOf_neg_one_le p '/'
        omega
      have hsi_lt : lastIdxOf p '.' < p.length := lastIdxOf_lt_length p '.'
      have hdlen : p.length - (lastIdxOf p '.').toNat = 5 := by
        have := congrArg List.length hE
        simpa using this
      have hsi_le : (lastIdxOf p '.').toNat ≤ p.length := by omega
      have hfi_le : (lastIdxOf p '/' + 1).toNat ≤ p.length := by omega
      -- p decomposes as front ++ basename
      have hsplit : p.take (lastIdxOf p '/' + 1).toNat ++ basenameL p = p :=
        List.take_append_drop _ p
      have hfrontlen : (p.take (lastIdxOf p '/' + 1).toNat).length
          = (lastIdxOf p '/' + 1).toNat := by
        simp [List.length_take]
        omega
      -- the last dot of the basename
      have happ := lastIdxOf_append (p.take (lastIdxOf p '/' + 1).toNat) (basenameL p) '.'
      rw [hsplit, hfrontlen] at happ
      have hfront_lt := lastIdxOf_lt_length (p.take (lastIdxOf p '/' + 1).toNat) '.'
      rw [hfrontlen] at hfront_lt
      have hbdot : lastIdxOf (basenameL p) '.'
          = lastIdxOf p '.' - (lastIdxOf p '/' + 1) := by
        by_cases hge : lastIdxOf (basenameL p) '.' ≥ 0
        · rw [if_pos hge] at happ
          omega
        · rw [if_neg hge] at happ
          omega
      have hblen : (basenameL p).length = p.length - (lastIdxOf p '/' + 1).toNat := by
        unfold basenameL
        simp [List.length_drop]
      have hbdot_pos : 0 < lastIdxOf (basenameL p) '.' := by omega
      -- the non-dot condition transfers from p to its basename
      have hslice : (basenameL p).take (lastIdxOf (basenameL p) '.').toNat
          = (p.drop (lastIdxOf p '/' + 1).toNat).take
              (lastIdxOf p '.' - (lastIdxOf p '/' + 1)).toNat := by
        rw [hbdot]
        rfl
      have hany : ((basenameL p).take (lastIdxOf (basenameL p) '.').toNat).any
          (fun c => !(c == '.')) = true := by
        rw [hslice]
        exact h2
      have hse := splitextL_eq_of_conds (basenameL p) (lastIdxOf_basenameL_slash p)
        hbdot_pos hany
      rw [hse]
      constructor
      · simp only [List.length_take]
        omega
      · omega

/-- C4: `getMicrosoftOfficeLockName` computes exactly the sentinel name
described by the spec (refinement of the code against the spec's
wording of the naming rule). -/
theorem C4_ms_sentinel_name (f : List Char) :
    getMicrosoftOfficeLockName f = msSentinelSpecName f := by
  unfold getMicrosoftOfficeLockName msSentinelSpecName
  by_cases hE : (splitextL f).2 = ".docx".toList
  · obtain ⟨hbase, hb5⟩ := basenameL_docx f hE
    by_cases hL : (basenameL f).length ≤ 6 + 1 + 4
    · rw [if_pos (Or.inr hL), if_neg (fun hc => absurd hc.2 (by rw [hbase]; omega))]
    · rw [if_neg (by push_neg; exact ⟨hE, by omega⟩ :
          ¬((splitextL f).2 ≠ ".docx".toList ∨ (basenameL f).length ≤ 6 + 1 + 4))]
      rw [if_pos (⟨hE, by rw [hbase]; omega⟩ :
          (splitextL f).2 = ".docx".toList ∧ (splitextL (basenameL f)).1.length > 6)]
      by_cases h13 : (basenameL f).length ≥ 8 + 1 + 4
      · rw [if_pos h13, if_pos (by omega : (basenameL f).length ≥ 13)]
      · rw [if_neg h13, if_neg (by omega : ¬((basenameL f).length ≥ 13)),
          if_pos (by omega : (basenameL f).length = 12)]
  · rw [if_pos (Or.inl hE), if_neg (fun hc => hE hc.1)]

/-! ## `forceSmartUnlock` (C5, C6)

The storage backend and clock are abstracted into an environment record
holding the outcome of each external call the function can make; the
function returns its Boolean result together with the trace of storage
operations it performed. -/

/-- The operations of the storage interface used by this module. -/
inductive StorageOp where
  | statOp
  | statxOp
  | readfileOp
  | getlockOp
  | getxattrOp
  | unlockOp
  | setlockOp
  | removefileOp
deriving DecidableEq

/-- Python `str.isdigit` restricted to ASCII digits. -/
def pyIsDigit (s : String) : Bool := !s.isEmpty && s.toList.all isJDigit

/-- Environment of one `forceSmartUnlock` call. The real-valued clock
`time.time()` is carried exactly as its integer part `now` plus the flag
`nowFracPos` telling whether its fractional part is nonzero: every
comparison the function performs — `int(savetime)` is an integer, the
window is an integer, and `int(t) = now` for the truncated clock — is a
function of these two pieces alone, so no precision is lost. The two
adjacent `time.time()` calls inside the function are modelled as the
same instant. -/
structure SmartUnlockEnv where
  /-- the `wopismartunlock` feature is enabled (the config value,
  upper-cased, differs from `'FALSE'`). -/
  wopismartunlock : Bool
  /-- `config.getint("general", "wopilockexpiration")`. -/
  wopilockexpiration : Int
  /-- `int(time.time())`: the whole-second part of the clock. -/
  now : Int
  /-- whether `time.time()` has a nonzero fractional part, i.e.
  `time.time() > int(time.time())`. -/
  nowFracPos : Bool
  /-- outcome of `st.getxattr(..., LASTSAVETIMEKEY)`: `.error` models a
  raised `IOError`, `.ok none` a missing attribute. -/
  xattr : Except Unit (Option String)

/-- The exact value of the real comparison `a < (b + frac) - w` for
integers `a`, `b`, `w` and a real `frac ∈ [0, 1)` with
`(0 < frac) = fracPos`: since `a - (b - w)` is an integer, the
comparison holds iff `a < b - w`, or `a = b - w` and the fractional part
is nonzero. This is `int(savetime) < time.time() - wopilockexpiration`
with `time.time() = b + frac`. -/
def ltClockMinus (a b : Int) (fracPos : Bool) (w : Int) : Bool :=
  if a < b - w then true
  else if a = b - w then fracPos
  else false

/-- `forceSmartUnlock`: eligibility flag and storage-operation trace.
The `st.unlock` / `st.setlock` calls are commented out in the source
("don't execute the unlock-relock yet"), so they never occur. An absent
or non-numeric attribute sets `savetime = time.time()` (a float), so
`int(savetime)` is `env.now` there. -/
def forceSmartUnlock (env : SmartUnlockEnv) (lockholder appname : String) :
    Bool × List StorageOp :=
  if !env.wopismartunlock then (false, [])
  else if lockholder ≠ appname then (false, [])
  else
    match env.xattr with
    | .error _ => (false, [StorageOp.getxattrOp])
    | .ok savetimeOpt =>
      let savetimeInt : Int :=
        match savetimeOpt with
        | none => env.now
        | some s => if !pyIsDigit s then env.now else (digitsToNat s.toList : Int)
      if ltClockMinus savetimeInt env.now env.nowFracPos env.wopilockexpiration then
        (true, [StorageOp.getxattrOp])
      else (false, [StorageOp.getxattrOp])

/-- C5 counterexample: at expiration window 0 — nonnegative, so allowed
by the claim — with the feature enabled, matching app names, an absent
last-save attribute, and a clock instant with a nonzero fractional part,
the source evaluates `int(time.time()) < time.time() - 0`, which is
true: the function returns `True`, where the claim demands `False` for
an absent attribute. -/
theorem C5_counterexample :
    (0 : Int) ≤ 0 ∧
      (forceSmartUnlock ⟨true, 0, 1000, true, Except.ok none⟩ "app" "app").1 = true :=
  ⟨by decide, by decide⟩

/-- C5 amended: with a *positive* expiration window (the window is an
integer number of seconds from `config.getint`, so positive means at
least one second), `forceSmartUnlock` returns true exactly when the
feature is enabled, the lock holder's app equals the token's app, and
the last-save attribute exists, is numeric, and is older than
`time.time()` minus the window (the exact mixed comparison
`int(savetime) < time.time() - window`, rendered by `ltClockMinus`); in
every other case — mismatch, absent or non-numeric attribute (treated
as the current instant), disabled feature, or an `IOError` while
reading the attribute — it returns false. At window 0 the truncation
makes the absent/non-numeric case true instead (see the
counterexample). -/
theorem C5_smart_unlock_iff (env : SmartUnlockEnv) (lockholder appname : String)
    (hw : 1 ≤ env.wopilockexpiration) :
    (forceSmartUnlock env lockholder appname).1 = true ↔
      env.wopismartunlock = true ∧ lockholder = appname ∧
        ∃ s, env.xattr = .ok (some s) ∧ pyIsDigit s = true ∧
          ltClockMinus (digitsToNat s.toList : Int) env.now env.nowFracPos
            env.wopilockexpiration = true := by
  obtain ⟨sw, wexp, now, frac, xattr⟩ := env
  simp only at hw
  have hnn : ltClockMinus now now frac wexp = false := by
    unfold ltClockMinus
    rw [if_neg (by omega : ¬(now < now - wexp)), if_neg (by omega : ¬(now = now - wexp))]
  cases sw with
  | false => simp [forceSmartUnlock]
  | true =>
    by_cases hla : lockholder = appname
    · cases xattr with
      | error e => simp [forceSmartUnlock, hla]
      | ok savetimeOpt =>
        cases savetimeOpt with
        | none => simp [forceSmartUnlock, hla, hnn]
        | some s =>
          by_cases hd : pyIsDigit s
          · by_cases hlt : ltClockMinus (digitsToNat s.data : Int) now frac wexp = true
            · simp [forceSmartUnlock, hla, hd, hlt]
            · simp [forceSmartUnlock, hla, hd, hlt]
          · simp [forceSmartUnlock, hla, hd, hnn]
    · simp [forceSmartUnlock, hla]

/-- Witness for the amended C5 with window 100, attribute value `"5"`,
clock 1000 seconds sharp. -/
theorem C5_smart_unlock_iff_witness :
    (1 : Int) ≤ 100 ∧
      (forceSmartUnlock ⟨true, 100, 1000, false, Except.ok (some "5")⟩ "app" "app").1
        = true :=
  ⟨by decide,
    (C5_smart_unlock_iff ⟨true, 100, 1000, false, Except.ok (some "5")⟩ "app" "app"
      (by decide)).mpr ⟨rfl, rfl, "5", rfl, by decide, by decide⟩⟩

/-- C6: `forceSmartUnlock` performs no storage mutation: its trace never
contains an unlock or setlock operation — the only storage operation it
can perform is the read of the last-save attribute. -/
theorem C6_no_storage_mutation (env : SmartUnlockEnv) (lockholder appname : String) :
    (forceSmartUnlock env lockholder appname).2 = [] ∨
      (forceSmartUnlock env lockholder appname).2 = [StorageOp.getxattrOp] := by
  unfold forceSmartUnlock
  by_cases h1 : !env.wopismartunlock
  · rw [if_pos h1]
    exact Or.inl rfl
  · rw [if_neg h1]
    by_cases h2 : lockholder ≠ appname
    · rw [if_pos (by simpa using h2)]
      exact Or.inl rfl
    · rw [if_neg (by simpa using h2)]
      cases env.xattr with
      | error e => exact Or.inr rfl
      | ok savetimeOpt =>
        simp only []
        split
        · exact Or.inr rfl
        · exact Or.inr rfl

/-! ## `storeForRecovery` (C7) -/

/-- Outcome of the local filesystem write in `storeForRecovery`: either
`open`/`write` raised an `OSError`, or `f.write` returned a byte
count. -/
inductive WriteOutcome where
  | fail
  | wrote (n : Nat)

/-- The exceptions that can arise inside the body of `storeForRecovery`:
an `OSError` from the local write, or the function's own
`IOError('Size mismatch')`. Both are instances of the
`(OSError, IOError)` pair caught by its handler. Nothing else in the
body can raise: the path construction and logging are pure. -/
inductive RecoveryExc where
  | oserror
  | sizeMismatch

inductive LogEntry where
  | errorEntry
  | criticalEntry
deriving DecidableEq

/-- The `try` body of `storeForRecovery`: write the content, raise on an
I/O failure or when the byte count written differs from the content
length, otherwise log an error-level recovery notice. -/
def storeForRecoveryBody (writeResult : WriteOutcome) (content : List Nat) :
    Except RecoveryExc LogEntry :=
  match writeResult with
  | .fail => .error .oserror
  | .wrote written =>
    if written ≠ content.length then .error .sizeMismatch
    else .ok .errorEntry

/-- `storeForRecovery`: the body's exceptions are all caught by the
function's own `except (OSError, IOError)` clause, which only logs a
critical entry; an exception escaping to the caller would be an
`Except.error` of this definition. The extra arguments mirror the
source's signature; they only flow into the log text. -/
def storeForRecovery (writeResult : WriteOutcome) (content : List Nat)
    (_username _filename _acctokforlog _exceptionMsg : String) :
    Except RecoveryExc (List LogEntry) :=
  match storeForRecoveryBody writeResult content with
  | .ok entry => .ok [entry]
  | .error _ => .ok [.criticalEntry]

/-- C7: `storeForRecovery` never propagates an exception: for every
input it returns normally, and every local-write failure — an I/O error
or a byte count differing from the content length — yields exactly one
critical log entry (a successful write yields the error-level recovery
notice instead). -/
theorem C7_recovery_never_raises (writeResult : WriteOutcome) (content : List Nat)
    (username filename acctokforlog exceptionMsg : String) :
    (∃ logs, storeForRecovery writeResult content username filename acctokforlog
        exceptionMsg = Except.ok logs) ∧
      (storeForRecovery writeResult content username filename acctokforlog exceptionMsg
          = Except.ok [LogEntry.criticalEntry] ↔
        (writeResult = WriteOutcome.fail ∨
          ∃ n, writeResult = WriteOutcome.wrote n ∧ n ≠ content.length)) := by
  cases writeResult with
  | fail =>
    refine ⟨⟨[LogEntry.criticalEntry], rfl⟩, ?_⟩
    simp [storeForRecovery, storeForRecoveryBody]
  | wrote n =>
    by_cases hn : n = content.length
    · refine ⟨⟨[LogEntry.errorEntry],
        by simp [storeForRecovery, storeForRecoveryBody, hn]⟩, ?_⟩
      simp [storeForRecovery, storeForRecoveryBody, hn]
    · refine ⟨⟨[LogEntry.criticalEntry],
        by simp [storeForRecovery, storeForRecoveryBody, hn]⟩, ?_⟩
      simp [storeForRecovery, storeForRecoveryBody, hn]

/-! ## `generateAccessToken` (C8) -/

/-- The file view mode (cf. cs3 `ViewMode`). -/
inductive ViewMode where
  | VIEW_ONLY
  | READ_ONLY
  | READ_WRITE

/-- The protocol string of a view mode. -/
def ViewMode.value : ViewMode → String
  | .VIEW_ONLY => "VIEW_MODE_VIEW_ONLY"
  | .READ_ONLY => "VIEW_MODE_READ_ONLY"
  | .READ_WRITE => "VIEW_MODE_READ_WRITE"

/-- The version-invariant stat record returned by `st.statx`. -/
structure StatInfo where
  inode : String
  mtime : Nat
  filepath : List Char

/-- Environment of one `generateAccessToken` call. -/
structure TokenEnv where
  /-- outcome of `st.statx(endpoint, fileid, userid)`: `.error` models
  the raised `IOError`, carrying its message. -/
  statResult : Except String StatInfo
  /-- `int(time.time())`. -/
  now : Int
  /-- `srv.tokenvalidity`. -/
  tokenvalidity : Int
  /-- the discovered app registry: extension to (edit URL, view URL). -/
  endpoints : List (List Char × String × String)

/-- The payload of the JWT access token. Modelled from the spec: the
on-wire token is the HMAC-SHA256-signed encoding of this payload
(`jwt.encode`, from the external `jwt` library); signing is not
modelled, the payload stands for the token. -/
structure AccTokPayload where
  userid : String
  wopiuser : String
  filename : List Char
  username : String
  viewmode : String
  folderurl : String
  endpoint : String
  appname : String
  appediturl : String
  appviewurl : String
  exp : Int

/-- `endpoints[fext]` lookup. -/
def lookupEndpoint (eps : List (List Char × String × String)) (ext : List Char) :
    Option (String × String) :=
  match eps with
  | [] => none
  | (e, urls) :: rest => if e = ext then some urls else lookupEndpoint rest ext

/-- `generateAccessToken`: re-raises the stat failure unchanged; on
success builds the token payload, resolving missing app URLs from the
registry by lower-cased file extension (a missing registry entry raises
a fresh `IOError` after a critical log). Returns `(inode, token)`. -/
def generateAccessToken (env : TokenEnv) (userid _fileid : String) (viewmode : ViewMode)
    (user : String × String) (folderurl endpoint : String)
    (app : String × String × String) :
    Except String (String × AccTokPayload) :=
  match env.statResult with
  | .error e => .error e
  | .ok statinfo =>
    let exptime := env.now + env.tokenvalidity
    let resolved : Option (String × String) :=
      if app.2.1 = "" then
        lookupEndpoint env.endpoints ((splitextL statinfo.filepath).2.map Char.toLower)
      else some (app.2.1, app.2.2)
    match resolved with
    | none => .error "IOError"
    | some urls =>
      .ok (statinfo.inode,
        ⟨userid, user.2, statinfo.filepath, user.1, viewmode.value, folderurl,
          endpoint, app.1, urls.1, urls.2, exptime⟩)

/-- C8: when the backing stat call fails, `generateAccessToken` re-raises
that error unchanged and yields no token; and a token/inode pair is
produced only when the stat succeeded, the inode being the stat's. -/
theorem C8_stat_failure_no_token (env : TokenEnv) (userid fileid : String) (viewmode : ViewMode)
    (user : String × String) (folderurl endpoint : String)
    (app : String × String × String) :
    (∀ e, env.statResult = Except.error e →
      generateAccessToken env userid fileid viewmode user folderurl endpoint app
        = Except.error e) ∧
    (∀ r, generateAccessToken env userid fileid viewmode user folderurl endpoint app
        = Except.ok r →
      ∃ si, env.statResult = Except.ok si ∧ r.1 = si.inode) := by
  constructor
  · intro e he
    simp [generateAccessToken, he]
  · intro r hr
    unfold generateAccessToken at hr
    cases hst : env.statResult with
    | error e =>
      rw [hst] at hr
      cases hr
    | ok si =>
      rw [hst] at hr
      refine ⟨si, rfl, ?_⟩
      simp only [] at hr
      split at hr
      · cases hr
      · cases hr
        rfl

/-- Witness for C8: a failing stat propagates its error unchanged. -/
theorem C8_stat_failure_no_token_witness :
    generateAccessToken ⟨Except.error "ENOENT", 0, 3600, []⟩ "u" "doc123" ViewMode.READ_WRITE
      ("alice", "alice!x") "f" "ep" ("app", "https://e", "https://v")
      = Except.error "ENOENT" :=
  (C8_stat_failure_no_token ⟨Except.error "ENOENT", 0, 3600, []⟩ "u" "doc123" ViewMode.READ_WRITE
    ("alice", "alice!x") "f" "ep" ("app", "https://e", "https://v")).1 "ENOENT" rfl

/-! ## `makeConflictResponse` (C9) -/

/-- Python truthiness of a `PyVal` (`if reason:`). -/
def pyTruthy (v : PyVal) : Bool :=
  match v with
  | .pynone => false
  | .pybool b => b
  | .pyint n => n != 0
  | .pyfloat m _ => m != 0
  | .pynan => true
  | .pyinf _ => true
  | .pystr s => !s.isEmpty
  | .pylist xs => !xs.isEmpty
  | .pydict kvs => !kvs.isEmpty

def hexDigitChar (n : Nat) : Char :=
  if n < 10 then Char.ofNat (48 + n) else Char.ofNat (87 + n)

def toHex4 (n : Nat) : List Char :=
  [hexDigitChar (n / 4096 % 16), hexDigitChar (n / 256 % 16), hexDigitChar (n / 16 % 16),
    hexDigitChar (n % 16)]

/-- The `ensure_ascii` escaping of `json.dumps`: escapes the quote, the
backslash, the named control characters, and everything outside the
printable ASCII range (astral characters as surrogate pairs). -/
def escapeJChar (c : Char) : List Char :=
  if c = '"' then ['\\', '"']
  else if c = '\\' then ['\\', '\\']
  else if c = '\n' then ['\\', 'n']
  else if c = '\r' then ['\\', 'r']
  else if c = '\t' then ['\\', 't']
  else if c = '\x08' then ['\\', 'b']
  else if c = '\x0C' then ['\\', 'f']
  else if c.toNat < 32 ∨ 127 ≤ c.toNat then
    if c.toNat < 65536 then '\\' :: 'u' :: toHex4 c.toNat
    else
      '\\' :: 'u' :: toHex4 (55296 + (c.toNat - 65536) / 1024) ++
        ('\\' :: 'u' :: toHex4 (56320 + (c.toNat - 65536) % 1024))
  else [c]

def dumpJString (s : String) : List Char :=
  '"' :: (s.toList.map escapeJChar).flatten ++ ['"']

mutual

/-- `json.dumps` with its default separators `', '` and `': '`; Python
floats are rendered as `<mant>e<exp>` here (no claim inspects a float
body). -/
def jsonDumpsV : PyVal → List Char
  | .pynone => "null".toList
  | .pybool true => "true".toList
  | .pybool false => "false".toList
  | .pyint n => (toString n).toList
  | .pynan => "NaN".toList
  | .pyinf true => "Infinity".toList
  | .pyinf false => "-Infinity".toList
  | .pyfloat m e => ((toString m) ++ "e" ++ toString e).toList
  | .pystr s => dumpJString s
  | .pylist xs => '[' :: jsonDumpsElems xs ++ [']']
  | .pydict kvs => '\x7b' :: jsonDumpsMembers kvs ++ ['\x7d']

def jsonDumpsElems : List PyVal → List Char
  | [] => []
  | [x] => jsonDumpsV x
  | x :: y :: rest => jsonDumpsV x ++ ',' :: ' ' :: jsonDumpsElems (y :: rest)

def jsonDumpsMembers : List (String × PyVal) → List Char
  | [] => []
  | [(k, v)] => dumpJString k ++ ':' :: ' ' :: jsonDumpsV v
  | (k, v) :: kv2 :: rest =>
      dumpJString k ++ ':' :: ' ' :: jsonDumpsV v ++ ',' :: ' ' :: jsonDumpsMembers (kv2 :: rest)

end

def jsonDumps (v : PyVal) : String := (jsonDumpsV v).asString

/-- Python `str()` of a `PyVal`, used when a non-string value lands in a
response header; the container cases approximate Python's repr, which no
claim inspects. -/
def pyStr (v : PyVal) : String :=
  match v with
  | .pystr s => s
  | .pybool true => "True"
  | .pybool false => "False"
  | .pynone => "None"
  | .pynan => "nan"
  | .pyinf true => "inf"
  | .pyinf false => "-inf"
  | .pyint n => toString n
  | .pyfloat m e => toString m ++ "e" ++ toString e
  | v => (jsonDumpsV v).asString

instance {e a : Type} [DecidableEq e] [DecidableEq a] : DecidableEq (Except e a) :=
  fun x y =>
    match x, y with
    | .ok v, .ok w =>
      if h : v = w then isTrue (by rw [h]) else isFalse (by intro hc; cases hc; exact h rfl)
    | .error v, .error w =>
      if h : v = w then isTrue (by rw [h]) else isFalse (by intro hc; cases hc; exact h rfl)
    | .ok _, .error _ => isFalse (by intro hc; cases hc)
    | .error _, .ok _ => isFalse (by intro hc; cases hc)

/-- A Flask response as far as this module shapes one. -/
structure WopiResponse where
  statusCode : Nat
  mimetype : String
  headers : List (String × String)
  dataBody : Option String
deriving DecidableEq

def getHeader (resp : WopiResponse) (name : String) : Option String :=
  match resp.headers.find? (fun h => h.1 == name) with
  | some h => some h.2
  | none => none

/-- The exceptions `makeConflictResponse` itself can raise: a `KeyError`
when a structured reason lacks `'message'`, a `TypeError` when a truthy
reason is neither a str nor a mapping. -/
inductive ConflictExc where
  | keyError
  | typeError
deriving DecidableEq

/-- `makeConflictResponse`: a 409 JSON response carrying the retrieved
lock (falsy → empty string); a truthy reason is normalized to a mapping
(a plain `str` wrapped as `\x7bmessage: reason\x7d`), exposed through the
`X-WOPI-LockFailureReason` header and serialized as the body. The
`operation`, `lock`, `oldlock` and `filename` arguments only feed the
warning log. -/
def makeConflictResponse (_operation : String) (retrievedlock : Option String)
    (_lock _oldlock : String) (_filename : List Char) (reason : Option PyVal) :
    Except ConflictExc WopiResponse :=
  let lockHdr : String :=
    match retrievedlock with
    | some l => if !l.isEmpty then l else ""
    | none => ""
  match reason with
  | none =>
    Except.ok ⟨409, "application/json", [("X-WOPI-Lock", lockHdr)], none⟩
  | some r =>
    if !pyTruthy r then
      Except.ok ⟨409, "application/json", [("X-WOPI-Lock", lockHdr)], none⟩
    else
      let wrapped : PyVal :=
        match r with
        | .pystr s => .pydict [("message", .pystr s)]
        | other => other
      match wrapped with
      | .pydict kvs =>
        match dictGet kvs "message" with
        | some msgv =>
          Except.ok ⟨409, "application/json",
            [("X-WOPI-Lock", lockHdr), ("X-WOPI-LockFailureReason", pyStr msgv)],
            some (jsonDumps (.pydict kvs))⟩
        | none => Except.error ConflictExc.keyError
      | _ => Except.error ConflictExc.typeError

/-- C9 counterexample: called without a reason (its default `None`, as
`lockHeader` at lines like `storeWopiFile` conflicts do), the built 409
response has no `X-WOPI-LockFailureReason` header and no body — so "every
conflict response carries the X-WOPI-LockFailureReason header together
with a JSON body" is false as stated. -/
theorem C9_counterexample :
    makeConflictResponse "LOCK" none "l" "ol" ['f'] none
        = Except.ok ⟨409, "application/json", [("X-WOPI-Lock", "")], none⟩ ∧
      getHeader ⟨409, "application/json", [("X-WOPI-Lock", "")], none⟩
          "X-WOPI-LockFailureReason" = none ∧
      (⟨409, "application/json", [("X-WOPI-Lock", "")], none⟩ : WopiResponse).dataBody
        = none :=
  ⟨rfl, rfl, rfl⟩

/-- C9 amended: every response built by `makeConflictResponse` has
status 409 and carries the `X-WOPI-Lock` header, the empty string when
no lock was retrieved; when a truthy reason is supplied, it additionally
carries `X-WOPI-LockFailureReason` and a JSON body, a plain-string
reason being wrapped as `\x7bmessage: reason\x7d` before serialization,
and a structured reason serialized as-is with its `message` value as the
header. -/
theorem C9_conflict_response (operation : String) (retrievedlock : Option String)
    (lock oldlock : String) (filename : List Char) (reason : Option PyVal)
    (resp : WopiResponse)
    (hok : makeConflictResponse operation retrievedlock lock oldlock filename reason
      = Except.ok resp) :
    resp.statusCode = 409 ∧
    (∃ lv, getHeader resp "X-WOPI-Lock" = some lv ∧ (retrievedlock = none → lv = "")) ∧
    (∀ s, reason = some (PyVal.pystr s) → s ≠ "" →
      getHeader resp "X-WOPI-LockFailureReason" = some s ∧
      resp.dataBody = some (jsonDumps (PyVal.pydict [("message", PyVal.pystr s)]))) ∧
    (∀ kvs v, reason = some (PyVal.pydict kvs) → kvs ≠ [] →
      dictGet kvs "message" = some v →
      getHeader resp "X-WOPI-LockFailureReason" = some (pyStr v) ∧
      resp.dataBody = some (jsonDumps (PyVal.pydict kvs))) := by
  cases reason with
  | none =>
    simp only [makeConflictResponse, Except.ok.injEq] at hok
    subst hok
    refine ⟨rfl, ⟨_, rfl, ?_⟩, ?_, ?_⟩
    · intro hrl
      subst hrl
      rfl
    · intro s hs
      cases hs
    · intro kvs v hk
      cases hk
  | some r =>
    by_cases ht : pyTruthy r = true
    · cases r with
      | pystr s =>
        simp only [makeConflictResponse, ht, Bool.not_true, Bool.false_eq_true, if_false,
          dictGet, if_pos, Except.ok.injEq] at hok
        subst hok
        refine ⟨rfl, ⟨_, rfl, ?_⟩, ?_, ?_⟩
        · intro hrl
          subst hrl
          rfl
        · intro s2 hs2 _
          cases hs2
          exact ⟨rfl, rfl⟩
        · intro kvs v hk
          cases hk
      | pydict kvs =>
        simp only [makeConflictResponse, ht, Bool.not_true, Bool.false_eq_true, if_false] at hok
        cases hmsg : dictGet kvs "message" with
        | none =>
          rw [hmsg] at hok
          simp at hok
        | some v =>
          rw [hmsg] at hok
          simp only [Except.ok.injEq] at hok
          subst hok
          refine ⟨rfl, ⟨_, rfl, ?_⟩, ?_, ?_⟩
          · intro hrl
            subst hrl
            rfl
          · intro s2 hs2
            cases hs2
          · intro kvs2 v2 hk _ hm2
            cases hk
            rw [hmsg] at hm2
            cases hm2
            exact ⟨rfl, rfl⟩
      | pynone => exact absurd ht (by simp [pyTruthy])
      | pybool b =>
        simp only [makeConflictResponse, ht, Bool.not_true, Bool.false_eq_true, if_false] at hok
        simp at hok
      | pyint n =>
        simp only [makeConflictResponse, ht, Bool.not_true, Bool.false_eq_true, if_false] at hok
        simp at hok
      | pyfloat m e =>
        simp only [makeConflictResponse, ht, Bool.not_true, Bool.false_eq_true, if_false] at hok
        simp at hok
      | pynan =>
        simp only [makeConflictResponse, ht, Bool.not_true, Bool.false_eq_true, if_false] at hok
        simp at hok
      | pyinf p =>
        simp only [makeConflictResponse, ht, Bool.not_true, Bool.false_eq_true, if_false] at hok
        simp at hok
      | pylist xs =>
        simp only [makeConflictResponse, ht, Bool.not_true, Bool.false_eq_true, if_false] at hok
        simp at hok
    · simp only [makeConflictResponse] at hok
      rw [if_pos (by simp [Bool.not_eq_true] at ht ⊢; exact ht)] at hok
      simp only [Except.ok.injEq] at hok
      subst hok
      refine ⟨rfl, ⟨_, rfl, ?_⟩, ?_, ?_⟩
      · intro hrl
        subst hrl
        rfl
      · intro s hs hne
        cases hs
        have hie : s.isEmpty = false := by
          cases h : s.isEmpty
          · rfl
          · rw [String.isEmpty_iff] at h
            exact absurd h hne
        exact absurd (by simp [pyTruthy, hie] : pyTruthy (PyVal.pystr s) = true) ht
      · intro kvs v hk hne
        cases hk
        exact absurd (by simp [pyTruthy, hne] : pyTruthy (PyVal.pydict kvs) = true) ht

/-- Witness for the amended C9 at a concrete truthy string reason. -/
theorem C9_conflict_response_witness :
    (⟨409, "application/json", [("X-WOPI-Lock", ""), ("X-WOPI-LockFailureReason", "x")],
        some "\x7b\"message\": \"x\"\x7d"⟩ : WopiResponse).statusCode = 409 ∧
      getHeader ⟨409, "application/json",
          [("X-WOPI-Lock", ""), ("X-WOPI-LockFailureReason", "x")],
          some "\x7b\"message\": \"x\"\x7d"⟩ "X-WOPI-LockFailureReason" = some "x" :=
  ⟨(C9_conflict_response "PUTFILE" none "l" "ol" ['f'] (some (PyVal.pystr "x")) _
      (by decide)).1,
    ((C9_conflict_response "PUTFILE" none "l" "ol" ['f'] (some (PyVal.pystr "x")) _
      (by decide)).2.2.1 "x" rfl (by decide)).1⟩

/-! ## `retrieveWopiLock` (C10)

The function performs up to five storage operations; their outcomes are
supplied in an environment record, and the function returns its result
together with the trace of the operations it performed, each carrying
its target path. -/

/-- `getLibreOfficeLockName`: `.~lock.<name>#` in the same directory. -/
def getLibreOfficeLockName (filename : List Char) : List Char :=
  dirnameL filename ++ '/' :: ".~lock.".toList ++ basenameL filename ++ ['#']

/-- One storage call of `retrieveWopiLock`, with its target path. -/
inductive RetrieveOp where
  | statMS (path : List Char)
  | statxLO (path : List Char)
  | readLO (path : List Char)
  | getlockOp (path : List Char)
  | removefileLO (path : List Char)
deriving DecidableEq

/-- The record returned by `st.getlock`. -/
structure LockRecord where
  lock_id : Option (List Nat)
  app_name : String
  expiration : Nat

/-- Outcome of `next(st.readfile(...))` on the LibreOffice sentinel,
followed by the `decode()`: an `IOError` raised by the call, a
`StopIteration` from an empty stream, an `IOError` object yielded by the
stream (the code re-raises and catches it, leaving `lolock` bound to the
truthy error object), or text content. -/
inductive LoReadOutcome where
  | ioError
  | stopIteration
  | yieldedIOError
  | content (s : String)

/-- Environment of one `retrieveWopiLock` call. -/
structure RetrieveEnv where
  /-- config `general.detectexternallocks` (default true). -/
  detectexternallocks : Bool
  /-- `srv.nonofficetypes`: extensions excluded from external-lock
  detection. -/
  nonofficetypes : List (List Char)
  /-- outcome of `st.stat` on the MS-Office sentinel: `.ok` means it
  exists. -/
  msStat : Except Unit Unit
  /-- outcome of `st.statx` on the LibreOffice sentinel; on success it
  carries the `ownerid` used for the holder label. -/
  loStatx : Except Unit String
  /-- outcome of reading the LibreOffice sentinel (only reached when the
  statx succeeded). -/
  loRead : LoReadOutcome
  /-- outcome of `st.getlock`: `.error` is a raised `IOError`, `.ok none`
  a falsy (absent) lock. -/
  getlockResult : Except Unit (Option LockRecord)

/-- The result of `retrieveWopiLock`: `('External', label)`, `(None,
None)`, or the decoded lock with its holder app. -/
inductive RetrieveResult where
  | external (label : String)
  | noLock
  | lockFound (lockId : List Nat) (appName : String)

/-- The protocol-lock phase of `retrieveWopiLock` (its second half):
fetch and decode the lock; when no lock is found and the LibreOffice
sentinel was read to a truthy value (`if lolock:`), lazily delete the
sentinel — an `IOError` from that delete is caught and only logged, the
call still happens. A non-decodable or unreadable lock reports an
external holder. -/
def retrieveLockPhase (env : RetrieveEnv) (filename : List Char)
    (overridefn : Option (List Char)) (lolockTruthy : Bool) (trace : List RetrieveOp) :
    RetrieveResult × List RetrieveOp :=
  let target := match overridefn with
    | some f => f
    | none => filename
  match env.getlockResult with
  | .error _ => (.external "Another app or user", trace ++ [.getlockOp target])
  | .ok none =>
    if lolockTruthy then
      (.noLock, trace ++ [.getlockOp target,
        .removefileLO (getLibreOfficeLockName filename)])
    else (.noLock, trace ++ [.getlockOp target])
  | .ok (some lockcontent) =>
    match _decodeLock lockcontent.lock_id with
    | .ok decoded => (.lockFound decoded lockcontent.app_name, trace ++ [.getlockOp target])
    | .error _ => (.external "Another app or user", trace ++ [.getlockOp target])

/-- `retrieveWopiLock`: the external-lock probes (MS Office first, then
LibreOffice, each best-effort) followed by the protocol-lock phase. -/
def retrieveWopiLock (env : RetrieveEnv) (filename : List Char)
    (overridefn : Option (List Char)) : RetrieveResult × List RetrieveOp :=
  if env.detectexternallocks = true ∧ (splitextL filename).2 ∉ env.nonofficetypes then
    match env.msStat with
    | .ok _ =>
      (.external "Microsoft Office for Desktop",
        [.statMS (getMicrosoftOfficeLockName filename)])
    | .error _ =>
      let t1 : List RetrieveOp := [.statMS (getMicrosoftOfficeLockName filename)]
      match env.loStatx with
      | .error _ =>
        retrieveLockPhase env filename overridefn false
          (t1 ++ [.statxLO (getLibreOfficeLockName filename)])
      | .ok _ownerid =>
        let t2 := t1 ++ [.statxLO (getLibreOfficeLockName filename),
          .readLO (getLibreOfficeLockName filename)]
        match env.loRead with
        | .ioError => retrieveLockPhase env filename overridefn false t2
        | .stopIteration => retrieveLockPhase env filename overridefn false t2
        | .yieldedIOError => retrieveLockPhase env filename overridefn true t2
        | .content s =>
          if isSubstring "WOPIServer".toList s.toList = false then
            (.external "LibreOffice for Desktop", t2)
          else retrieveLockPhase env filename overridefn true t2
  else retrieveLockPhase env filename overridefn false []

/-- C10: when the LibreOffice sentinel was read and its content contains
the `'WOPIServer'` signature, and the protocol-lock fetch then returns no
lock, `retrieveWopiLock` issues a `removefile` of that sentinel — the
lock-retrieval path does mutate storage. -/
theorem C10_lock_retrieval_deletes_sentinel (env : RetrieveEnv) (filename : List Char)
    (overridefn : Option (List Char)) (ownerid : String) (s : String)
    (hcheck : env.detectexternallocks = true)
    (hext : (splitextL filename).2 ∉ env.nonofficetypes)
    (hms : env.msStat = Except.error ())
    (hlo : env.loStatx = Except.ok ownerid)
    (hread : env.loRead = LoReadOutcome.content s)
    (hsig : isSubstring "WOPIServer".toList s.toList = true)
    (hlock : env.getlockResult = Except.ok none) :
    (retrieveWopiLock env filename overridefn).1 = RetrieveResult.noLock ∧
      RetrieveOp.removefileLO (getLibreOfficeLockName filename)
        ∈ (retrieveWopiLock env filename overridefn).2 := by
  unfold retrieveWopiLock retrieveLockPhase
  rw [if_pos ⟨hcheck, hext⟩, hms, hlo, hread, hlock]
  simp at hsig
  simp [hsig]

/-- Witness for C10 at a concrete environment. -/
theorem C10_lock_retrieval_deletes_sentinel_witness :
    (retrieveWopiLock ⟨true, [], Except.error (), Except.ok "owner",
        LoReadOutcome.content "WOPIServer locked", Except.ok none⟩
        "/a/b.docx".toList none).1 = RetrieveResult.noLock ∧
      RetrieveOp.removefileLO (getLibreOfficeLockName "/a/b.docx".toList)
        ∈ (retrieveWopiLock ⟨true, [], Except.error (), Except.ok "owner",
            LoReadOutcome.content "WOPIServer locked", Except.ok none⟩
            "/a/b.docx".toList none).2 :=
  C10_lock_retrieval_deletes_sentinel
    ⟨true, [], Except.error (), Except.ok "owner",
      LoReadOutcome.content "WOPIServer locked", Except.ok none⟩
    "/a/b.docx".toList none "owner" "WOPIServer locked"
    rfl (by decide) rfl rfl rfl (by decide) rfl

end Wopi
